import Mathlib

/-!
Verification of the CDO user-configuration layer of this repository.

The analytic evaluators (`_define_adv_field`, `_define_bcs`, `_define_source`)
are embedded from `cs_user_cdo-condif.c` as functions over the reals; the
C `cs_get_t` output union is modelled as a record holding the scalar slot and
the vector slot, and each evaluator returns the record it would leave behind,
so that dependence on the incoming record (hidden state) is observable.

The registry/linker operations (`cs_equation_set_option`,
`cs_equation_set_source_term_option`, `cs_equation_link`, the time loop,
`cs_domain_activate_wall_distance`) are declared in headers but their bodies
are not part of this repository; they are modelled from the specification,
as marked on each definition.
-/

open Real

/-- The file-scope constant `one_third = 1./3.` of `cs_user_cdo-condif.c`. -/
noncomputable def one_third : ℝ := 1 / 3

/-- The local constant `pi = 4.0*atan(1.0)` used by the evaluators. -/
noncomputable def pi_c : ℝ := 4 * Real.arctan 1

/-- Model of the C output union `cs_get_t`: a scalar slot and a vector slot. -/
structure cs_get_t where
  val : ℝ
  vect : ℝ × ℝ × ℝ

/-- Embedding of `_define_adv_field` (cs_user_cdo-condif.c, lines 92-102):
writes the three components `(y - 0.5, 0.5 - x, z)` into the vector slot. -/
noncomputable def cs_define_adv_field (time : ℝ) (xyz : ℝ × ℝ × ℝ)
    (get : cs_get_t) : cs_get_t :=
  let x := xyz.1
  let y := xyz.2.1
  let z := xyz.2.2
  { get with vect := (y - 0.5, 0.5 - x, z) }

/-- Embedding of `_define_bcs` (cs_user_cdo-condif.c, lines 108-121):
writes `1 + sin(pi x) sin(pi (y+0.5)) sin(pi (z+1/3))` into the scalar slot. -/
noncomputable def cs_define_bcs (time : ℝ) (xyz : ℝ × ℝ × ℝ)
    (get : cs_get_t) : cs_get_t :=
  let x := xyz.1
  let y := xyz.2.1
  let z := xyz.2.2
  let pi := pi_c
  let bcval := 1 + Real.sin (pi * x) * Real.sin (pi * (y + 0.5)) *
      Real.sin (pi * (z + one_third))
  { get with val := bcval }

/-- Embedding of `_define_source` (cs_user_cdo-condif.c, lines 127-160):
closed-form first and second derivatives of the manufactured solution,
contracted against the conductivity tensor, plus the advection and
zero-order contributions. -/
noncomputable def cs_define_source (time : ℝ) (xyz : ℝ × ℝ × ℝ)
    (get : cs_get_t) : cs_get_t :=
  let x := xyz.1
  let y := xyz.2.1
  let z := xyz.2.2
  let pi := pi_c
  let pi2 := pi * pi
  let cpx := Real.cos (pi * x)
  let spx := Real.sin (pi * x)
  let cpy := Real.cos (pi * (y + 0.5))
  let spy := Real.sin (pi * (y + 0.5))
  let cpz := Real.cos (pi * (z + one_third))
  let spz := Real.sin (pi * (z + one_third))
  -- first derivatives
  let gx := pi * cpx * spy * spz
  let gy := pi * spx * cpy * spz
  let gz := pi * spx * spy * cpz
  -- second derivatives
  let gxx := -pi2 * spx * spy * spz
  let gyy := gxx
  let gzz := gxx
  let gxy := pi2 * cpx * cpy * spz
  let gxz := pi2 * cpx * spy * cpz
  let gyz := pi2 * spx * cpy * cpz
  -- material property
  let cond00 : ℝ := 1.0
  let cond01 : ℝ := 0.5
  let cond02 : ℝ := 0.0
  let cond11 : ℝ := 1.0
  let cond12 : ℝ := 0.5
  let cond22 : ℝ := 1.0
  -- contribution of the diffusive part, then `*= -1`
  let v1 := cond00 * gxx + cond11 * gyy + cond22 * gzz +
      2 * (cond01 * gxy + cond02 * gxz + cond12 * gyz)
  let v2 := v1 * (-1)
  -- contribution of the advection term and the zero-order term
  let v3 := v2 + ((y - 0.5) * gx + (0.5 - x) * gy + z * gz + 1 + spx * spy * spz)
  { get with val := v3 }

/-- The manufactured exact solution named by the spec:
`u(x,y,z) = 1 + sin(pi x) sin(pi (y+0.5)) sin(pi (z+1/3))`. This definition
follows the spec text; the theorems compare the embedded evaluators with it. -/
noncomputable def u_exact (x y z : ℝ) : ℝ :=
  1 + Real.sin (Real.pi * x) * Real.sin (Real.pi * (y + 0.5)) *
      Real.sin (Real.pi * (z + one_third))

lemma pi_c_eq : pi_c = Real.pi := by
  unfold pi_c
  rw [Real.arctan_one]
  ring

lemma deriv_u_x (x y z : ℝ) :
    deriv (fun s => u_exact s y z) x =
      Real.pi * Real.cos (Real.pi * x) * Real.sin (Real.pi * (y + 0.5)) *
        Real.sin (Real.pi * (z + one_third)) := by
  have h : HasDerivAt (fun s => u_exact s y z)
      (Real.cos (Real.pi * x) * (Real.pi * 1) * Real.sin (Real.pi * (y + 0.5)) *
        Real.sin (Real.pi * (z + one_third))) x := by
    unfold u_exact
    exact ((((hasDerivAt_id x).const_mul Real.pi).sin.mul_const _).mul_const _).const_add 1
  rw [h.deriv]
  ring

lemma deriv_u_y (x y z : ℝ) :
    deriv (fun s => u_exact x s z) y =
      Real.pi * Real.sin (Real.pi * x) * Real.cos (Real.pi * (y + 0.5)) *
        Real.sin (Real.pi * (z + one_third)) := by
  have h : HasDerivAt (fun s => u_exact x s z)
      (Real.sin (Real.pi * x) * (Real.cos (Real.pi * (y + 0.5)) * (Real.pi * 1)) *
        Real.sin (Real.pi * (z + one_third))) y := by
    unfold u_exact
    exact (((((hasDerivAt_id y).add_const 0.5).const_mul Real.pi).sin.const_mul
      (Real.sin (Real.pi * x))).mul_const _).const_add 1
  rw [h.deriv]
  ring

lemma deriv_u_z (x y z : ℝ) :
    deriv (fun s => u_exact x y s) z =
      Real.pi * Real.sin (Real.pi * x) * Real.sin (Real.pi * (y + 0.5)) *
        Real.cos (Real.pi * (z + one_third)) := by
  have h : HasDerivAt (fun s => u_exact x y s)
      (Real.sin (Real.pi * x) * Real.sin (Real.pi * (y + 0.5)) *
        (Real.cos (Real.pi * (z + one_third)) * (Real.pi * 1))) z := by
    unfold u_exact
    exact ((((hasDerivAt_id z).add_const one_third).const_mul Real.pi).sin.const_mul
      (Real.sin (Real.pi * x) * Real.sin (Real.pi * (y + 0.5)))).const_add 1
  rw [h.deriv]
  ring

lemma deriv_u_xx (x y z : ℝ) :
    deriv (fun s => deriv (fun r => u_exact r y z) s) x =
      -(Real.pi * Real.pi) * Real.sin (Real.pi * x) * Real.sin (Real.pi * (y + 0.5)) *
        Real.sin (Real.pi * (z + one_third)) := by
  have hfun : (fun s => deriv (fun r => u_exact r y z) s) =
      fun s => Real.pi * Real.cos (Real.pi * s) * Real.sin (Real.pi * (y + 0.5)) *
        Real.sin (Real.pi * (z + one_third)) :=
    funext fun s => deriv_u_x s y z
  rw [hfun]
  have h : HasDerivAt (fun s => Real.pi * Real.cos (Real.pi * s) *
        Real.sin (Real.pi * (y + 0.5)) * Real.sin (Real.pi * (z + one_third)))
      (Real.pi * (-Real.sin (Real.pi * x) * (Real.pi * 1)) * Real.sin (Real.pi * (y + 0.5)) *
        Real.sin (Real.pi * (z + one_third))) x :=
    ((((hasDerivAt_id x).const_mul Real.pi).cos.const_mul Real.pi).mul_const _).mul_const _
  rw [h.deriv]
  ring

lemma deriv_u_yy (x y z : ℝ) :
    deriv (fun s => deriv (fun r => u_exact x r z) s) y =
      -(Real.pi * Real.pi) * Real.sin (Real.pi * x) * Real.sin (Real.pi * (y + 0.5)) *
        Real.sin (Real.pi * (z + one_third)) := by
  have hfun : (fun s => deriv (fun r => u_exact x r z) s) =
      fun s => Real.pi * Real.sin (Real.pi * x) * Real.cos (Real.pi * (s + 0.5)) *
        Real.sin (Real.pi * (z + one_third)) :=
    funext fun s => deriv_u_y x s z
  rw [hfun]
  have h : HasDerivAt (fun s => Real.pi * Real.sin (Real.pi * x) *
        Real.cos (Real.pi * (s + 0.5)) * Real.sin (Real.pi * (z + one_third)))
      (Real.pi * Real.sin (Real.pi * x) * (-Real.sin (Real.pi * (y + 0.5)) * (Real.pi * 1)) *
        Real.sin (Real.pi * (z + one_third))) y :=
    (((((hasDerivAt_id y).add_const 0.5).const_mul Real.pi).cos.const_mul
      (Real.pi * Real.sin (Real.pi * x))).mul_const _)
  rw [h.deriv]
  ring

lemma deriv_u_zz (x y z : ℝ) :
    deriv (fun s => deriv (fun r => u_exact x y r) s) z =
      -(Real.pi * Real.pi) * Real.sin (Real.pi * x) * Real.sin (Real.pi * (y + 0.5)) *
        Real.sin (Real.pi * (z + one_third)) := by
  have hfun : (fun s => deriv (fun r => u_exact x y r) s) =
      fun s => Real.pi * Real.sin (Real.pi * x) * Real.sin (Real.pi * (y + 0.5)) *
        Real.cos (Real.pi * (s + one_third)) :=
    funext fun s => deriv_u_z x y s
  rw [hfun]
  have h : HasDerivAt (fun s => Real.pi * Real.sin (Real.pi * x) *
        Real.sin (Real.pi * (y + 0.5)) * Real.cos (Real.pi * (s + one_third)))
      (Real.pi * Real.sin (Real.pi * x) * Real.sin (Real.pi * (y + 0.5)) *
        (-Real.sin (Real.pi * (z + one_third)) * (Real.pi * 1))) z :=
    ((((hasDerivAt_id z).add_const one_third).const_mul Real.pi).cos.const_mul
      (Real.pi * Real.sin (Real.pi * x) * Real.sin (Real.pi * (y + 0.5))))
  rw [h.deriv]
  ring

lemma deriv_u_xy (x y z : ℝ) :
    deriv (fun s => deriv (fun r => u_exact r s z) x) y =
      Real.pi * Real.pi * Real.cos (Real.pi * x) * Real.cos (Real.pi * (y + 0.5)) *
        Real.sin (Real.pi * (z + one_third)) := by
  have hfun : (fun s => deriv (fun r => u_exact r s z) x) =
      fun s => Real.pi * Real.cos (Real.pi * x) * Real.sin (Real.pi * (s + 0.5)) *
        Real.sin (Real.pi * (z + one_third)) :=
    funext fun s => deriv_u_x x s z
  rw [hfun]
  have h : HasDerivAt (fun s => Real.pi * Real.cos (Real.pi * x) *
        Real.sin (Real.pi * (s + 0.5)) * Real.sin (Real.pi * (z + one_third)))
      (Real.pi * Real.cos (Real.pi * x) * (Real.cos (Real.pi * (y + 0.5)) * (Real.pi * 1)) *
        Real.sin (Real.pi * (z + one_third))) y :=
    (((((hasDerivAt_id y).add_const 0.5).const_mul Real.pi).sin.const_mul
      (Real.pi * Real.cos (Real.pi * x))).mul_const _)
  rw [h.deriv]
  ring

lemma deriv_u_xz (x y z : ℝ) :
    deriv (fun s => deriv (fun r => u_exact r y s) x) z =
      Real.pi * Real.pi * Real.cos (Real.pi * x) * Real.sin (Real.pi * (y + 0.5)) *
        Real.cos (Real.pi * (z + one_third)) := by
  have hfun : (fun s => deriv (fun r => u_exact r y s) x) =
      fun s => Real.pi * Real.cos (Real.pi * x) * Real.sin (Real.pi * (y + 0.5)) *
        Real.sin (Real.pi * (s + one_third)) :=
    funext fun s => deriv_u_x x y s
  rw [hfun]
  have h : HasDerivAt (fun s => Real.pi * Real.cos (Real.pi * x) *
        Real.sin (Real.pi * (y + 0.5)) * Real.sin (Real.pi * (s + one_third)))
      (Real.pi * Real.cos (Real.pi * x) * Real.sin (Real.pi * (y + 0.5)) *
        (Real.cos (Real.pi * (z + one_third)) * (Real.pi * 1))) z :=
    (((hasDerivAt_id z).add_const one_third).const_mul Real.pi).sin.const_mul
      (Real.pi * Real.cos (Real.pi * x) * Real.sin (Real.pi * (y + 0.5)))
  rw [h.deriv]
  ring

lemma deriv_u_yz (x y z : ℝ) :
    deriv (fun s => deriv (fun r => u_exact x r s) y) z =
      Real.pi * Real.pi * Real.sin (Real.pi * x) * Real.cos (Real.pi * (y + 0.5)) *
        Real.cos (Real.pi * (z + one_third)) := by
  have hfun : (fun s => deriv (fun r => u_exact x r s) y) =
      fun s => Real.pi * Real.sin (Real.pi * x) * Real.cos (Real.pi * (y + 0.5)) *
        Real.sin (Real.pi * (s + one_third)) :=
    funext fun s => deriv_u_y x y s
  rw [hfun]
  have h : HasDerivAt (fun s => Real.pi * Real.sin (Real.pi * x) *
        Real.cos (Real.pi * (y + 0.5)) * Real.sin (Real.pi * (s + one_third)))
      (Real.pi * Real.sin (Real.pi * x) * Real.cos (Real.pi * (y + 0.5)) *
        (Real.cos (Real.pi * (z + one_third)) * (Real.pi * 1))) z :=
    (((hasDerivAt_id z).add_const one_third).const_mul Real.pi).sin.const_mul
      (Real.pi * Real.sin (Real.pi * x) * Real.cos (Real.pi * (y + 0.5)))
  rw [h.deriv]
  ring

/-- Unfolded value of the embedded source evaluator, with the code's
`pi = 4*atan(1)` replaced by the real number pi. -/
lemma cs_define_source_val (t x y z : ℝ) (g : cs_get_t) :
    (cs_define_source t (x, y, z) g).val =
      (1.0 * (-(Real.pi * Real.pi) * Real.sin (Real.pi * x) * Real.sin (Real.pi * (y + 0.5)) *
          Real.sin (Real.pi * (z + one_third)))
        + 1.0 * (-(Real.pi * Real.pi) * Real.sin (Real.pi * x) * Real.sin (Real.pi * (y + 0.5)) *
          Real.sin (Real.pi * (z + one_third)))
        + 1.0 * (-(Real.pi * Real.pi) * Real.sin (Real.pi * x) * Real.sin (Real.pi * (y + 0.5)) *
          Real.sin (Real.pi * (z + one_third)))
        + 2 * (0.5 * (Real.pi * Real.pi * Real.cos (Real.pi * x) * Real.cos (Real.pi * (y + 0.5)) *
            Real.sin (Real.pi * (z + one_third)))
          + 0.0 * (Real.pi * Real.pi * Real.cos (Real.pi * x) * Real.sin (Real.pi * (y + 0.5)) *
            Real.cos (Real.pi * (z + one_third)))
          + 0.5 * (Real.pi * Real.pi * Real.sin (Real.pi * x) * Real.cos (Real.pi * (y + 0.5)) *
            Real.cos (Real.pi * (z + one_third))))) * (-1)
      + ((y - 0.5) * (Real.pi * Real.cos (Real.pi * x) * Real.sin (Real.pi * (y + 0.5)) *
          Real.sin (Real.pi * (z + one_third)))
        + (0.5 - x) * (Real.pi * Real.sin (Real.pi * x) * Real.cos (Real.pi * (y + 0.5)) *
          Real.sin (Real.pi * (z + one_third)))
        + z * (Real.pi * Real.sin (Real.pi * x) * Real.sin (Real.pi * (y + 0.5)) *
          Real.cos (Real.pi * (z + one_third)))
        + 1 + Real.sin (Real.pi * x) * Real.sin (Real.pi * (y + 0.5)) *
          Real.sin (Real.pi * (z + one_third))) := by
  simp only [cs_define_source, pi_c_eq]

/-- C1: for every position, time and prior output-union state, the source
evaluator returns `f = diffusion_contribution + advection_contribution +
(zero-order term)`, where the derivatives are the exact (Mathlib `deriv`)
first and second, pure and mixed, partial derivatives of the manufactured
solution, contracted against `K = [[1,.5,0],[.5,1,.5],[0,.5,1]]` and the
advection field `beta = (y-0.5, 0.5-x, z)`; in particular at the origin the
returned value is the symbolic-differentiation value `1 - sqrt(3) pi / 4`. -/
theorem source_term_is_manufactured :
    (∀ (t x y z : ℝ) (g : cs_get_t),
      (cs_define_source t (x, y, z) g).val =
        -((1 : ℝ) * deriv (fun s => deriv (fun r => u_exact r y z) s) x
          + 1 * deriv (fun s => deriv (fun r => u_exact x r z) s) y
          + 1 * deriv (fun s => deriv (fun r => u_exact x y r) s) z
          + 2 * ((0.5 : ℝ) * deriv (fun s => deriv (fun r => u_exact r s z) x) y
            + 0 * deriv (fun s => deriv (fun r => u_exact r y s) x) z
            + 0.5 * deriv (fun s => deriv (fun r => u_exact x r s) y) z))
        + ((y - 0.5) * deriv (fun s => u_exact s y z) x
          + (0.5 - x) * deriv (fun s => u_exact x s z) y
          + z * deriv (fun s => u_exact x y s) z)
        + u_exact x y z) ∧
    (∀ (t : ℝ) (g : cs_get_t),
      (cs_define_source t (0, 0, 0) g).val = 1 - Real.sqrt 3 * Real.pi / 4) := by
  constructor
  · intro t x y z g
    rw [cs_define_source_val, deriv_u_xx, deriv_u_yy, deriv_u_zz, deriv_u_xy,
      deriv_u_xz, deriv_u_yz, deriv_u_x, deriv_u_y, deriv_u_z]
    unfold u_exact
    ring
  · intro t g
    rw [cs_define_source_val]
    have h0 : Real.pi * ((0 : ℝ) + 0.5) = Real.pi / 2 := by ring
    have h1 : Real.pi * ((0 : ℝ) + one_third) = Real.pi / 3 := by
      unfold one_third; ring
    rw [h0, h1, mul_zero, Real.sin_zero, Real.cos_zero, Real.sin_pi_div_two,
      Real.cos_pi_div_two, Real.sin_pi_div_three, Real.cos_pi_div_three]
    ring

/-- The diffusive-plus-advective part of `_define_source`
(cs_user_cdo-condif.c, lines 135-159 without the trailing zero-order
summand `+ 1 + spx*spy*spz` of line 159). -/
noncomputable def cs_source_deriv_part (xyz : ℝ × ℝ × ℝ) : ℝ :=
  let x := xyz.1
  let y := xyz.2.1
  let z := xyz.2.2
  let pi := pi_c
  let pi2 := pi * pi
  let cpx := Real.cos (pi * x)
  let spx := Real.sin (pi * x)
  let cpy := Real.cos (pi * (y + 0.5))
  let spy := Real.sin (pi * (y + 0.5))
  let cpz := Real.cos (pi * (z + one_third))
  let spz := Real.sin (pi * (z + one_third))
  let gx := pi * cpx * spy * spz
  let gy := pi * spx * cpy * spz
  let gz := pi * spx * spy * cpz
  let gxx := -pi2 * spx * spy * spz
  let gyy := gxx
  let gzz := gxx
  let gxy := pi2 * cpx * cpy * spz
  let gxz := pi2 * cpx * spy * cpz
  let gyz := pi2 * spx * cpy * cpz
  let cond00 : ℝ := 1.0
  let cond01 : ℝ := 0.5
  let cond02 : ℝ := 0.0
  let cond11 : ℝ := 1.0
  let cond12 : ℝ := 0.5
  let cond22 : ℝ := 1.0
  let v1 := cond00 * gxx + cond11 * gyy + cond22 * gzz +
      2 * (cond01 * gxy + cond02 * gxz + cond12 * gyz)
  let v2 := v1 * (-1)
  v2 + ((y - 0.5) * gx + (0.5 - x) * gy + z * gz)

/-- C4: every analytic evaluator is a pure function of `(time, position)`:
the written output slot does not depend on the prior state of the output
union, and the slot the evaluator does not write is returned untouched, so
no state outside the arguments is read or mutated. -/
theorem evaluators_are_pure :
    ∀ (t : ℝ) (p : ℝ × ℝ × ℝ) (g₁ g₂ : cs_get_t),
      (cs_define_adv_field t p g₁).vect = (cs_define_adv_field t p g₂).vect ∧
      (cs_define_bcs t p g₁).val = (cs_define_bcs t p g₂).val ∧
      (cs_define_source t p g₁).val = (cs_define_source t p g₂).val ∧
      (cs_define_adv_field t p g₁).val = g₁.val ∧
      (cs_define_bcs t p g₁).vect = g₁.vect ∧
      (cs_define_source t p g₁).vect = g₁.vect := by
  intro t p g₁ g₂
  exact ⟨rfl, rfl, rfl, rfl, rfl, rfl⟩

/-- C10: at every position, the scalar written by the boundary-condition
evaluator coincides with the zero-order (reaction) summand added by the
source-term evaluator: the source value is the derivative part plus exactly
the Dirichlet boundary value, whatever the two times and prior states. -/
theorem bcs_equals_source_reaction_summand :
    ∀ (t₁ t₂ : ℝ) (xyz : ℝ × ℝ × ℝ) (g₁ g₂ : cs_get_t),
      (cs_define_source t₁ xyz g₁).val =
        cs_source_deriv_part xyz + (cs_define_bcs t₂ xyz g₂).val := by
  intro t₁ t₂ xyz g₁ g₂
  obtain ⟨x, y, z⟩ := xyz
  simp only [cs_define_source, cs_define_bcs, cs_source_deriv_part]
  ring

/-- C2: for every position and time (and any prior state of the output
union), the boundary-condition evaluator writes the scalar value of the
manufactured exact solution into the scalar slot. -/
theorem bcs_returns_exact_solution :
    ∀ (t x y z : ℝ) (g : cs_get_t),
      (cs_define_bcs t (x, y, z) g).val = u_exact x y z := by
  intro t x y z g
  simp only [cs_define_bcs, u_exact, pi_c_eq]

/-- C3: for every position and time (and any prior state of the output
union), the advection-field evaluator writes exactly the vector
`(y - 0.5, 0.5 - x, z)`, all three components included. -/
theorem adv_field_returns_beta :
    ∀ (t x y z : ℝ) (g : cs_get_t),
      (cs_define_adv_field t (x, y, z) g).vect = (y - 0.5, 0.5 - x, z) := by
  intro t x y z g
  simp only [cs_define_adv_field]

/-! ### Registry and linker model

The bodies of the registry/linker operations are not part of this
repository (only their call sites in `cs_user_cdo-condif.c` and
`cs_user_cdo_numerics-examples.c` are), so the following definitions are
modelled from the specification. -/

/-- Setup-phase error kinds listed by the spec. -/
inductive CsError
  | duplicateName
  | notFound
  | shapeMismatch
  | invalidOption
  | unlinkedRole
deriving DecidableEq

/-- Decimal digit value of a character, if any. -/
def digitVal (c : Char) : Option ℕ :=
  if c.isDigit then some (c.toNat - 48) else none

/-- Read a nonempty digit string as a natural number. -/
def natOfDigits (cs : List Char) : Option ℕ :=
  if cs.isEmpty then none
  else cs.foldl (fun acc c => acc.bind fun n => (digitVal c).map fun d => 10 * n + d)
    (some 0)

/-- Read a decimal literal such as `0.5` or `1.5` as a numerator and a
positive power-of-ten denominator. -/
def parseDec (s : String) : Option (ℕ × ℕ) :=
  let cs := s.toList
  let ip := cs.takeWhile (fun c => c ≠ '.')
  match cs.dropWhile (fun c => c ≠ '.') with
  | [] => (natOfDigits ip).map fun n => (n, 1)
  | _ :: frac =>
    (natOfDigits ip).bind fun n =>
      (natOfDigits frac).map fun f =>
        (n * 10 ^ frac.length + f, 10 ^ frac.length)

/-- The rational number denoted by a parsed decimal literal. -/
def ratOfParsed (p : ℕ × ℕ) : ℚ := (p.1 : ℚ) / (p.2 : ℚ)

/-- A source term of an equation: optional label, mesh location, definition
method, and the per-term options (quadrature and post-processing). -/
structure cs_source_term_t where
  label : Option String
  location : String
  defType : String
  quadrature : Option String
  post : Option String
deriving DecidableEq

/-- The per-role links of an equation: a time property, a diffusion
property, and an advection field, each optional. -/
structure cs_links_t where
  time : Option String
  diffusion : Option String
  advection : Option String
deriving DecidableEq

/-- An equation of the registry: identity, generic string options, per-role
links, a count of setup warnings, and its source terms. -/
structure cs_equation_t where
  name : String
  fieldName : String
  valueShape : String
  defaultBC : String
  options : List (String × String)
  links : cs_links_t
  warnings : ℕ
  sourceTerms : List cs_source_term_t
deriving DecidableEq

/-- The option keys accepted by `cs_equation_set_option`, from the comment
block of `cs_user_cdo_numerics-examples.c`. -/
def validKeys : List String :=
  ["space_scheme", "verbosity", "hodge_diff_algo", "hodge_time_algo",
   "hodge_diff_coef", "hodge_time_coef", "solver_family", "itsol", "precond",
   "itsol_max_iter", "itsol_eps", "itsol_resnorm", "bc_enforcement",
   "bc_quadrature", "time_scheme", "time_theta", "post_freq", "post",
   "adv_weight", "adv_weight_criterion"]

/-- Store a key/value pair, overwriting any previous binding of the key. -/
def setAssoc (opts : List (String × String)) (key val : String) :
    List (String × String) :=
  (key, val) :: opts.filter (fun kv => kv.1 ≠ key)

/-- Modelled from the spec: `cs_equation_set_option` (body not in this
repository) validates the key against the fixed enumerated set and, for
`time_theta`, requires the value to be a number in `[0,1]`; on failure it
returns `invalidOption` and leaves the equation unchanged, on success it
stores the pair, overwriting any previous binding. -/
def cs_equation_set_option (e : cs_equation_t) (key val : String) :
    cs_equation_t × Option CsError :=
  if key ∈ validKeys then
    if key = "time_theta" then
      match parseDec val with
      | some p =>
        if p.1 ≤ p.2 then
          ({ e with options := setAssoc e.options key val }, none)
        else (e, some CsError.invalidOption)
      | none => (e, some CsError.invalidOption)
    else ({ e with options := setAssoc e.options key val }, none)
  else (e, some CsError.invalidOption)

/-- The quadrature algorithm names accepted for the `quadrature` key. -/
def quadVals : List String := ["subdiv", "bary", "higher", "highest"]

/-- Overwrite one per-term option of a source term. -/
def setTermOpt (st : cs_source_term_t) (key val : String) : cs_source_term_t :=
  if key = "quadrature" then { st with quadrature := some val }
  else { st with post := some val }

/-- Modelled from the spec: `cs_equation_set_source_term_option` (body not
in this repository); a `none` label broadcasts to all source terms of the
equation, a given label fails with `notFound` when no term carries it, an
invalid quadrature value fails with `invalidOption`, and a successful call
overwrites the addressed option. -/
def cs_equation_set_source_term_option (e : cs_equation_t)
    (label : Option String) (key val : String) :
    cs_equation_t × Option CsError :=
  if key = "quadrature" ∧ val ∉ quadVals then (e, some CsError.invalidOption)
  else
    match label with
    | none =>
      ({ e with sourceTerms := e.sourceTerms.map fun st => setTermOpt st key val },
       none)
    | some l =>
      if ∃ st ∈ e.sourceTerms, st.label = some l then
        ({ e with sourceTerms := e.sourceTerms.map fun st =>
            if st.label = some l then setTermOpt st key val else st }, none)
      else (e, some CsError.notFound)

/-- A structure that can be linked to an equation role: either a property
or an advection field. -/
inductive LinkTarget
  | property (name : String)
  | advField (name : String)
deriving DecidableEq

/-- The name carried by a link target. -/
def targetName : LinkTarget → String
  | LinkTarget.property n => n
  | LinkTarget.advField n => n

/-- Whether a role accepts a target: `time` and `diffusion` take a
property, `advection` takes an advection field. -/
def roleAccepts (role : String) : LinkTarget → Bool
  | LinkTarget.property _ => role = "time" ∨ role = "diffusion"
  | LinkTarget.advField _ => role = "advection"

/-- The link currently held by a role. -/
def roleLink (e : cs_equation_t) (role : String) : Option String :=
  if role = "time" then e.links.time
  else if role = "diffusion" then e.links.diffusion
  else e.links.advection

/-- Overwrite one role of a link record, leaving the other roles as they
are. -/
def roleUpdate (lk : cs_links_t) (role : String) (n : String) : cs_links_t :=
  if role = "time" then { lk with time := some n }
  else if role = "diffusion" then { lk with diffusion := some n }
  else { lk with advection := some n }

/-- Modelled from the spec: `cs_equation_link` (body not in this
repository) fails with a shape error when the target kind does not fit the
role; otherwise it stores the link, overwriting a previous link of the same
role and counting the overwrite as a setup warning. -/
def cs_equation_link (e : cs_equation_t) (role : String) (target : LinkTarget) :
    cs_equation_t × Option CsError :=
  match role, target with
  | "time", LinkTarget.property p =>
    ({ e with
        links := { e.links with time := some p }
        warnings := e.warnings + (if e.links.time.isSome then 1 else 0) }, none)
  | "diffusion", LinkTarget.property p =>
    ({ e with
        links := { e.links with diffusion := some p }
        warnings := e.warnings + (if e.links.diffusion.isSome then 1 else 0) }, none)
  | "advection", LinkTarget.advField a =>
    ({ e with
        links := { e.links with advection := some a }
        warnings := e.warnings + (if e.links.advection.isSome then 1 else 0) }, none)
  | _, _ => (e, some CsError.shapeMismatch)

/-- Append a source term to an equation, as
`cs_equation_add_source_term(eq, label, location, type, func)` does at its
call site (cs_user_cdo-condif.c, lines 478-482). -/
def cs_equation_add_source_term (e : cs_equation_t) (label : Option String)
    (location defType : String) : cs_equation_t :=
  { e with sourceTerms := e.sourceTerms ++
      [{ label := label, location := location, defType := defType,
         quadrature := none, post := none }] }

/-- The equation `AdvDiff` as registered by `cs_domain_add_user_equation`
in `cs_user_cdo_init_domain` (cs_user_cdo-condif.c, lines 298-302). -/
def eqAdvDiff0 : cs_equation_t :=
  { name := "AdvDiff", fieldName := "Potential", valueShape := "scalar",
    defaultBC := "zero_value", options := [],
    links := { time := none, diffusion := none, advection := none },
    warnings := 0, sourceTerms := [] }

/-- The equation `AdvDiff` after the linking and source-term calls of
`cs_user_cdo_set_domain` (cs_user_cdo-condif.c, lines 460-482). -/
def eqAdvDiff : cs_equation_t :=
  let e1 := (cs_equation_link eqAdvDiff0 "time" (LinkTarget.property "rho.cp")).1
  let e2 := (cs_equation_link e1 "diffusion" (LinkTarget.property "conductivity")).1
  let e3 := (cs_equation_link e2 "advection" (LinkTarget.advField "adv_field")).1
  cs_equation_add_source_term e3 (some "SourceTerm") "cells" "analytic"

/-- Modelled from the spec: the computational domain state needed for the
predefined-equation activation, owning the equation registry and the
wall-distance activation flag. -/
structure cs_domain_t where
  properties : List (String × String)
  advFields : List String
  equations : List String
  wallDistance : Bool
deriving DecidableEq

/-- Modelled from the spec: `cs_domain_activate_wall_distance` (body not in
this repository) activates the predefined wall-distance module; activating
twice is a no-op, not an error. -/
def cs_domain_activate_wall_distance (d : cs_domain_t) :
    cs_domain_t × Option CsError :=
  if d.wallDistance then (d, none)
  else ({ d with
          wallDistance := true
          equations := d.equations ++ ["WallDistance"] }, none)

/-- Modelled from the spec: the solver time loop under the policy set by
`cs_domain_set_time_step` (body not in this repository): starting from step
`n` at time `t`, a step of size `dt` is taken only while fewer than the
allowed number of steps were taken (the fuel) and the final time has not
been reached. -/
def timeLoopAux (finalTime dt : ℚ) : ℕ → ℕ → ℚ → ℕ × ℚ
  | 0, n, t => (n, t)
  | fuel + 1, n, t =>
    if t < finalTime then timeLoopAux finalTime dt fuel (n + 1) (t + dt)
    else (n, t)

/-- The time loop run from step 0 at time 0 with at most `maxSteps` steps,
final time `finalTime` and constant step `dt`; returns the number of steps
taken and the final time reached. -/
def timeLoop (maxSteps : ℕ) (finalTime dt : ℚ) : ℕ × ℚ :=
  timeLoopAux finalTime dt maxSteps 0 0


lemma set_option_time_theta (e : cs_equation_t) (v : String) :
    cs_equation_set_option e "time_theta" v =
      match parseDec v with
      | some p =>
        if p.1 ≤ p.2 then
          ({ e with options := setAssoc e.options "time_theta" v }, none)
        else (e, some CsError.invalidOption)
      | none => (e, some CsError.invalidOption) := by
  have hmem : ("time_theta" : String) ∈ validKeys := by decide
  simp [cs_equation_set_option, hmem]

/-- C5 (spec-modelled): setting `time_theta` succeeds exactly when the
parsed value lies in `[0,1]`, leaving the equation unchanged on the failing
call; in particular `1.5` fails with `invalidOption` and `0.5` succeeds. -/
theorem time_theta_option_range (e : cs_equation_t) (v : String) (n d : ℕ)
    (hq : parseDec v = some (n, d)) (hd : 0 < d) :
    cs_equation_set_option e "time_theta" v =
      (if 0 ≤ ratOfParsed (n, d) ∧ ratOfParsed (n, d) ≤ 1
        then ({ e with options := setAssoc e.options "time_theta" v }, none)
        else (e, some CsError.invalidOption)) ∧
    cs_equation_set_option e "time_theta" "1.5" =
      (e, some CsError.invalidOption) ∧
    (cs_equation_set_option e "time_theta" "0.5").2 = none := by
  have hiff : n ≤ d ↔ 0 ≤ ratOfParsed (n, d) ∧ ratOfParsed (n, d) ≤ 1 := by
    unfold ratOfParsed
    constructor
    · intro h
      refine ⟨by positivity, ?_⟩
      rw [div_le_one (by exact_mod_cast hd)]
      exact_mod_cast h
    · rintro ⟨-, h⟩
      rw [div_le_one (by exact_mod_cast hd)] at h
      exact_mod_cast h
  refine ⟨?_, ?_, ?_⟩
  · rw [set_option_time_theta, hq]
    by_cases h : n ≤ d
    · have h2 := hiff.mp h
      simp [h, h2]
    · have h2 : ¬(0 ≤ ratOfParsed (n, d) ∧ ratOfParsed (n, d) ≤ 1) :=
        fun hc => h (hiff.mpr hc)
      simp [h, h2]
  · rw [set_option_time_theta]
    have h15 : parseDec "1.5" = some (15, 10) := by decide
    rw [h15]
    simp
  · rw [set_option_time_theta]
    have h05 : parseDec "0.5" = some (5, 10) := by decide
    rw [h05]
    simp

/-- Witness for C5 at `v = "1.5"` on the registered `AdvDiff` equation. -/
theorem time_theta_option_range_witness :
    (cs_equation_set_option eqAdvDiff0 "time_theta" "1.5" =
      (if 0 ≤ ratOfParsed (15, 10) ∧ ratOfParsed (15, 10) ≤ 1
        then ({ eqAdvDiff0 with
                options := setAssoc eqAdvDiff0.options "time_theta" "1.5" }, none)
        else (eqAdvDiff0, some CsError.invalidOption))) ∧
    cs_equation_set_option eqAdvDiff0 "time_theta" "1.5" =
      (eqAdvDiff0, some CsError.invalidOption) ∧
    (cs_equation_set_option eqAdvDiff0 "time_theta" "0.5").2 = none :=
  time_theta_option_range eqAdvDiff0 "1.5" 15 10 (by decide) (by decide)

lemma setTermOpt_label (st : cs_source_term_t) (key val : String) :
    (setTermOpt st key val).label = st.label := by
  unfold setTermOpt
  split <;> rfl

lemma update_label_iff (a : cs_source_term_t) (l key val : String) :
    (if a.label = some l then setTermOpt a key val else a).label = some l ↔
      a.label = some l := by
  by_cases h : a.label = some l <;> simp [h, setTermOpt_label]

lemma update_comp (l v₁ v₂ : String) :
    ((fun st => if st.label = some l then setTermOpt st "quadrature" v₂ else st) ∘
      fun st => if st.label = some l then setTermOpt st "quadrature" v₁ else st) =
    fun st => if st.label = some l then setTermOpt st "quadrature" v₂ else st := by
  funext st
  by_cases h : st.label = some l
  · simp [Function.comp, h, setTermOpt_label, setTermOpt]
  · simp [Function.comp, h]

/-- C6 (spec-modelled): overwriting the `quadrature` option of a labelled
source term with a second value leaves exactly the second value (last write
wins, no accumulation), for every pair of valid successive values; in
particular `bary` then `subdiv` on the `SourceTerm` term of `AdvDiff`
leaves the single term with quadrature `subdiv` and nothing else. -/
theorem source_term_quadrature_last_write_wins (e : cs_equation_t)
    (l v₁ v₂ : String) (h₁ : v₁ ∈ quadVals) (h₂ : v₂ ∈ quadVals) :
    cs_equation_set_source_term_option
        (cs_equation_set_source_term_option e (some l) "quadrature" v₁).1
        (some l) "quadrature" v₂ =
      cs_equation_set_source_term_option e (some l) "quadrature" v₂ ∧
    ((cs_equation_set_source_term_option
        (cs_equation_set_source_term_option eqAdvDiff (some "SourceTerm")
          "quadrature" "bary").1
        (some "SourceTerm") "quadrature" "subdiv").1.sourceTerms.map
      cs_source_term_t.quadrature) = [some "subdiv"] := by
  constructor
  · by_cases hp : ∃ st ∈ e.sourceTerms, st.label = some l
    · simp [cs_equation_set_source_term_option, h₁, h₂, hp,
        update_label_iff, update_comp]
    · simp [cs_equation_set_source_term_option, h₁, h₂, hp]
  · decide

/-- Witness for C6 on the registered `AdvDiff` equation with the two
quadrature values of the source file. -/
theorem source_term_quadrature_last_write_wins_witness :
    cs_equation_set_source_term_option
        (cs_equation_set_source_term_option eqAdvDiff (some "SourceTerm")
          "quadrature" "bary").1
        (some "SourceTerm") "quadrature" "subdiv" =
      cs_equation_set_source_term_option eqAdvDiff (some "SourceTerm")
        "quadrature" "subdiv" ∧
    ((cs_equation_set_source_term_option
        (cs_equation_set_source_term_option eqAdvDiff (some "SourceTerm")
          "quadrature" "bary").1
        (some "SourceTerm") "quadrature" "subdiv").1.sourceTerms.map
      cs_source_term_t.quadrature) = [some "subdiv"] :=
  source_term_quadrature_last_write_wins eqAdvDiff "SourceTerm" "bary" "subdiv"
    (by decide) (by decide)

/-- C7 (spec-modelled): linking a role twice in sequence leaves exactly one
active link for that role, namely the second target; the other roles are
untouched (the final links are the single-role overwrite of the
intermediate links), and the re-link is counted as a setup warning. -/
theorem relink_role_overwrites (e : cs_equation_t) (role : String)
    (A B : LinkTarget)
    (hrole : role = "time" ∨ role = "diffusion" ∨ role = "advection")
    (hA : roleAccepts role A = true) (hB : roleAccepts role B = true) :
    roleLink (cs_equation_link (cs_equation_link e role A).1 role B).1 role =
      some (targetName B) ∧
    (cs_equation_link (cs_equation_link e role A).1 role B).1.links =
      roleUpdate (cs_equation_link e role A).1.links role (targetName B) ∧
    (cs_equation_link (cs_equation_link e role A).1 role B).1.warnings =
      (cs_equation_link e role A).1.warnings + 1 := by
  rcases hrole with rfl | rfl | rfl <;> cases A <;> cases B <;>
    simp_all [roleAccepts, cs_equation_link, roleLink, roleUpdate, targetName]

/-- Witness for C7: re-linking the diffusion role of `AdvDiff` from the
`conductivity` property to the `rho.cp` property. -/
theorem relink_role_overwrites_witness :
    roleLink (cs_equation_link (cs_equation_link eqAdvDiff0 "diffusion"
        (LinkTarget.property "conductivity")).1 "diffusion"
        (LinkTarget.property "rho.cp")).1 "diffusion" =
      some (targetName (LinkTarget.property "rho.cp")) ∧
    (cs_equation_link (cs_equation_link eqAdvDiff0 "diffusion"
        (LinkTarget.property "conductivity")).1 "diffusion"
        (LinkTarget.property "rho.cp")).1.links =
      roleUpdate (cs_equation_link eqAdvDiff0 "diffusion"
        (LinkTarget.property "conductivity")).1.links "diffusion"
        (targetName (LinkTarget.property "rho.cp")) ∧
    (cs_equation_link (cs_equation_link eqAdvDiff0 "diffusion"
        (LinkTarget.property "conductivity")).1 "diffusion"
        (LinkTarget.property "rho.cp")).1.warnings =
      (cs_equation_link eqAdvDiff0 "diffusion"
        (LinkTarget.property "conductivity")).1.warnings + 1 :=
  relink_role_overwrites eqAdvDiff0 "diffusion"
    (LinkTarget.property "conductivity") (LinkTarget.property "rho.cp")
    (Or.inr (Or.inl rfl)) (by decide) (by decide)

lemma timeLoopAux_steps_le (ft dt : ℚ) :
    ∀ (fuel n : ℕ) (t : ℚ), (timeLoopAux ft dt fuel n t).1 ≤ n + fuel := by
  intro fuel
  induction fuel with
  | zero => intro n t; simp [timeLoopAux]
  | succ f ih =>
    intro n t
    simp only [timeLoopAux]
    split
    · exact le_trans (ih (n + 1) (t + dt)) (by omega)
    · simp

lemma timeLoopAux_reaches_bound (ft dt : ℚ) :
    ∀ (fuel n : ℕ) (t : ℚ),
      (timeLoopAux ft dt fuel n t).1 = n + fuel ∨
        ft ≤ (timeLoopAux ft dt fuel n t).2 := by
  intro fuel
  induction fuel with
  | zero => intro n t; simp [timeLoopAux]
  | succ f ih =>
    intro n t
    simp only [timeLoopAux]
    split
    · rcases ih (n + 1) (t + dt) with h | h
      · exact Or.inl (by omega)
      · exact Or.inr h
    · rename_i h
      exact Or.inr (by simpa using le_of_not_lt h)

lemma timeLoopAux_time_lt (ft dt : ℚ) :
    ∀ (fuel n : ℕ) (t : ℚ), t < ft + dt →
      (timeLoopAux ft dt fuel n t).2 < ft + dt := by
  intro fuel
  induction fuel with
  | zero => intro n t h; simpa [timeLoopAux] using h
  | succ f ih =>
    intro n t h
    simp only [timeLoopAux]
    split
    · rename_i hlt
      exact ih (n + 1) (t + dt) (by linarith)
    · simpa using h

/-- C8 (spec-modelled): the time loop stops at whichever of the two bounds
is reached first: it never takes more than `maxSteps` steps, when it stops
short of `maxSteps` the final time has reached `finalTime`, it never
advances beyond `finalTime` by more than the last step, and under the
settings of `cs_user_cdo_init_domain` (100 max steps, final time 10, step
1) it stops after exactly 10 steps at time 10. -/
theorem time_loop_stops_at_first_bound (ms : ℕ) (ft dt : ℚ)
    (hdt : 0 < dt) (hft : 0 ≤ ft) :
    (timeLoop ms ft dt).1 ≤ ms ∧
    ((timeLoop ms ft dt).1 = ms ∨ ft ≤ (timeLoop ms ft dt).2) ∧
    (timeLoop ms ft dt).2 < ft + dt ∧
    timeLoop 100 10 1 = (10, 10) := by
  refine ⟨?_, ?_, ?_, ?_⟩
  · simpa using timeLoopAux_steps_le ft dt ms 0 0
  · simpa using timeLoopAux_reaches_bound ft dt ms 0 0
  · exact timeLoopAux_time_lt ft dt ms 0 0 (by linarith)
  · norm_num [timeLoop, timeLoopAux]

/-- Witness for C8 at the concrete time-step policy of the source file. -/
theorem time_loop_stops_at_first_bound_witness :
    (timeLoop 100 10 1).1 ≤ 100 ∧
    ((timeLoop 100 10 1).1 = 100 ∨ (10 : ℚ) ≤ (timeLoop 100 10 1).2) ∧
    (timeLoop 100 10 1).2 < 10 + 1 ∧
    timeLoop 100 10 1 = (10, 10) :=
  time_loop_stops_at_first_bound 100 10 1 zero_lt_one (by positivity)

/-- C9 (spec-modelled): activating the wall-distance module twice leaves
the domain in the same state as activating it once; the second activation
is a no-op and raises no error. -/
theorem wall_distance_activation_idempotent :
    ∀ d : cs_domain_t,
      cs_domain_activate_wall_distance
          (cs_domain_activate_wall_distance d).1 =
        ((cs_domain_activate_wall_distance d).1, none) := by
  intro d
  by_cases h : d.wallDistance <;> simp [cs_domain_activate_wall_distance, h]
